import Mathlib

/-!
Formal model of the scoring/ranking engine and the analysis-cache layer of the
github-issue-analyzer repository, together with proofs of the specified
properties.

Conventions of the embedding:
* Python `float` arithmetic is modelled by exact rational arithmetic (`ℚ`);
  every constant involved (0.40, 0.6, …) is a short decimal literal.
* Python strings are Lean `String`s; `str.lower()` is modelled by `pyLower`
  (ASCII case folding, which is what Python's `lower` does on the ASCII
  strings this code handles).
* A Python `datetime` value is represented by its ISO-8601 rendering
  (`datetime.isoformat` is injective on `datetime` values), so the
  `issue_updated_at` argument is `Option String`: `some s` stands for a
  datetime rendering to `s`, `none` for Python `None`.
* Fallible calls (the external LLM assessment) are `Except` values; the
  in-memory view of the on-disk `diskcache` store is an association list
  (newest binding first, so `set` shadows = overwrites).
-/

/-- ASCII lower-casing of one character, as Python's `str.lower` does on
ASCII input (source: the `.lower()` calls in `scorer.py`). -/
def lowerChar (c : Char) : Char :=
  if 65 ≤ c.toNat ∧ c.toNat ≤ 90 then Char.ofNat (c.toNat + 32) else c

/-- Model of Python `str.lower()` restricted to ASCII strings. -/
def pyLower (s : String) : String := ⟨s.data.map lowerChar⟩

/-- Model of Python `s.replace("_", " ")` (the pattern is a single char). -/
def underscoreToSpace (s : String) : String :=
  ⟨s.data.map (fun c => if c = '_' then ' ' else c)⟩

/- Scoring weights from `config.py` (lines 30-33). -/

def DIFFICULTY_MATCH_WEIGHT : ℚ := 0.40

def TIME_MATCH_WEIGHT : ℚ := 0.30

def REPO_HEALTH_WEIGHT : ℚ := 0.15

def ISSUE_CLARITY_WEIGHT : ℚ := 0.15

/-- Model of `IssueData` from `github_client.py`; `updated_at`/`created_at` datetimes
are represented by their ISO renderings (see module comment). -/
structure IssueData where
  id : Nat
  title : String
  body : String
  url : String
  repo_name : String
  repo_stars : Int
  repo_description : String
  labels : List String
  created_at : String
  updated_at : Option String
  comments_count : Nat
  assignees : List String
  deriving DecidableEq, Repr

/-- Model of `RepoHealth` from `github_client.py`. -/
structure RepoHealth where
  stars : Int
  forks : Int
  open_issues : Int
  days_since_update : Int
  has_contributing_guide : Bool
  is_healthy : Bool
  deriving DecidableEq, Repr

/-- Model of `IssueAnalysis` from `analyzer.py` (the pydantic model). -/
structure IssueAnalysis where
  difficulty : String
  difficulty_confidence : String
  difficulty_reasoning : String
  estimated_time : String
  time_confidence : String
  time_reasoning : String
  summary : String
  technical_requirements : List String
  clarity_score : Int
  clarity_reasoning : String
  recommendation : String
  deriving DecidableEq, Repr

/-- Model of `ScoreComponent` from `scorer.py`. -/
structure ScoreComponent where
  name : String
  score : ℚ
  weight : ℚ
  weighted_score : ℚ
  confidence : String
  reasoning : String
  match_description : String
  deriving DecidableEq, Repr

/-- Model of `ScoredIssue` from `scorer.py`. -/
structure ScoredIssue where
  issue : IssueData
  analysis : IssueAnalysis
  score : ℚ
  score_breakdown : List (String × ℚ)
  score_components : List ScoreComponent
  overall_confidence : String
  deriving DecidableEq, Repr

/-- Model of `IssueScorer.difficulty_order`. -/
def difficulty_order : List String := ["beginner", "intermediate", "advanced"]

/-- Model of `IssueScorer.time_order`. -/
def time_order : List String := ["quick_win", "half_day", "full_day", "weekend", "deep_dive"]

/-- Python `list.index`, made total: `some i` for the first index holding `x`,
`none` models the `ValueError` caught by the surrounding `try`. -/
def listIndex (x : String) : List String → Option Nat
  | [] => none
  | y :: ys => if y = x then some 0 else (listIndex x ys).map (· + 1)

/-- Model of `abs(a - b)` on Python ints, for the two natural indices involved. -/
def absDiff (a b : Nat) : Nat := max a b - min a b

/-- Model of `IssueScorer.calculate_difficulty_score` (`scorer.py` 67-88); the `try`
around both `.index` calls is the double `Option` match. -/
def calculate_difficulty_score (actual preferred : String) : ℚ :=
  match listIndex (pyLower actual) difficulty_order,
        listIndex (pyLower preferred) difficulty_order with
  | some actual_idx, some preferred_idx =>
    let diff := absDiff actual_idx preferred_idx
    if diff = 0 then 1.0 else if diff = 1 then 0.6 else 0.2
  | _, _ => 0.5

/-- Model of `IssueScorer.calculate_time_score` (`scorer.py` 90-114). -/
def calculate_time_score (actual preferred : String) : ℚ :=
  match listIndex (pyLower actual) time_order,
        listIndex (pyLower preferred) time_order with
  | some actual_idx, some preferred_idx =>
    let diff := absDiff actual_idx preferred_idx
    if diff = 0 then 1.0
    else if diff = 1 then 0.7
    else if diff = 2 then 0.4
    else 0.1
  | _, _ => 0.5

/-- Model of `IssueScorer.calculate_health_score` (`scorer.py` 116-137). -/
def calculate_health_score : Option RepoHealth → ℚ
  | none => 0.7
  | some repo_health =>
    let score := (if repo_health.is_healthy then (0.5 : ℚ) else 0)
      + (if repo_health.has_contributing_guide then (0.3 : ℚ) else 0)
      + (if repo_health.days_since_update < 30 then (0.2 : ℚ) else 0)
    min score 1.0

/-- Model of `IssueScorer.calculate_clarity_score` (`scorer.py` 139-143). -/
def calculate_clarity_score (clarity : Int) : ℚ :=
  ((max 0 (min clarity 10) : ℤ) : ℚ) / 10

/-- Model of `IssueScorer._get_match_description` (`scorer.py` 145-156). -/
def _get_match_description (score : ℚ) (component : String) : String :=
  if score ≥ 0.9 then "Excellent match"
  else if score ≥ 0.7 then "Good match"
  else if score ≥ 0.5 then "Partial match"
  else if score ≥ 0.3 then "Weak match"
  else "Poor match"

/-- Model of `IssueScorer._calculate_overall_confidence` (`scorer.py` 158-174). -/
def _calculate_overall_confidence (components : List ScoreComponent) : String :=
  let confidences := components.map (fun c => pyLower c.confidence)
  if "low" ∈ confidences then "low"
  else if ∀ c ∈ confidences, c = "high" then "high"
  else "medium"

/-- Model of `IssueScorer.score_issue` (`scorer.py` 176-333). -/
def score_issue (issue : IssueData) (analysis : IssueAnalysis)
    (user_skill user_time : String) (repo_health : Option RepoHealth) : ScoredIssue :=
  let difficulty_score := calculate_difficulty_score analysis.difficulty user_skill
  let adiff := analysis.difficulty
  let diff_reasoning :=
    if difficulty_score = 1.0 then
      s!"Perfect match: issue is {adiff}, you selected {user_skill}"
    else if difficulty_score ≥ 0.6 then
      s!"Close match: issue is {adiff}, you selected {user_skill}"
    else
      s!"Mismatch: issue is {adiff}, but you selected {user_skill}"
  let diff_confidence :=
    if analysis.difficulty_confidence = "" then "medium" else analysis.difficulty_confidence
  let diffComp : ScoreComponent :=
    { name := "Difficulty Match"
      score := difficulty_score
      weight := DIFFICULTY_MATCH_WEIGHT
      weighted_score := difficulty_score * DIFFICULTY_MATCH_WEIGHT
      confidence := diff_confidence
      reasoning := diff_reasoning
      match_description := _get_match_description difficulty_score "difficulty" }
  let time_score := calculate_time_score analysis.estimated_time user_time
  let time_display := underscoreToSpace analysis.estimated_time
  let user_time_display := underscoreToSpace user_time
  let time_reasoning :=
    if time_score = 1.0 then
      s!"Perfect match: estimated {time_display}, you have {user_time_display}"
    else if time_score ≥ 0.7 then
      s!"Close match: estimated {time_display}, you have {user_time_display}"
    else
      s!"Time mismatch: estimated {time_display}, but you have {user_time_display}"
  let time_confidence :=
    if analysis.time_confidence = "" then "medium" else analysis.time_confidence
  let timeComp : ScoreComponent :=
    { name := "Time Match"
      score := time_score
      weight := TIME_MATCH_WEIGHT
      weighted_score := time_score * TIME_MATCH_WEIGHT
      confidence := time_confidence
      reasoning := time_reasoning
      match_description := _get_match_description time_score "time" }
  let health_score := calculate_health_score repo_health
  let healthComp : ScoreComponent :=
    match repo_health with
    | some rh =>
      let health_parts :=
        (if rh.days_since_update < 30 then ["very active"]
         else if rh.days_since_update < 90 then ["recently updated"]
         else
           let n := rh.days_since_update
           [s!"last updated {n} days ago"])
        ++ (if rh.has_contributing_guide then ["has CONTRIBUTING.md"] else [])
      { name := "Repo Health"
        score := health_score
        weight := REPO_HEALTH_WEIGHT
        weighted_score := health_score * REPO_HEALTH_WEIGHT
        confidence := "high"
        reasoning := "Repository: " ++ String.intercalate ", " health_parts
        match_description := _get_match_description health_score "health" }
    | none =>
      { name := "Repo Health"
        score := health_score
        weight := REPO_HEALTH_WEIGHT
        weighted_score := health_score * REPO_HEALTH_WEIGHT
        confidence := "low"
        reasoning := "Repository health not checked (using default score)"
        match_description := _get_match_description health_score "health" }
  let clarity_score := calculate_clarity_score analysis.clarity_score
  let clarity_reasoning :=
    if analysis.clarity_reasoning = "" then
      if analysis.clarity_score ≥ 8 then "Well-written issue with clear requirements"
      else if analysis.clarity_score ≥ 5 then "Moderately clear, some details may need clarification"
      else "Unclear issue, may require discussion with maintainers"
    else analysis.clarity_reasoning
  let clarityComp : ScoreComponent :=
    { name := "Issue Clarity"
      score := clarity_score
      weight := ISSUE_CLARITY_WEIGHT
      weighted_score := clarity_score * ISSUE_CLARITY_WEIGHT
      confidence := "high"
      reasoning := clarity_reasoning
      match_description := _get_match_description clarity_score "clarity" }
  let components := [diffComp, timeComp, healthComp, clarityComp]
  let total_score := (components.map (fun c => c.weighted_score)).sum
  { issue := issue
    analysis := analysis
    score := total_score
    score_breakdown :=
      [("difficulty", difficulty_score), ("time", time_score),
       ("health", health_score), ("clarity", clarity_score)]
    score_components := components
    overall_confidence := _calculate_overall_confidence components }

/-- The ordering used by `rank_issues`: descending by total score. -/
def rankLE (a b : ScoredIssue) : Prop := b.score ≤ a.score

instance : DecidableRel rankLE :=
  fun a b => inferInstanceAs (Decidable (b.score ≤ a.score))

instance : IsTotal ScoredIssue rankLE := ⟨fun a b => le_total b.score a.score⟩

instance : IsTrans ScoredIssue rankLE := ⟨fun _ _ _ h₁ h₂ => le_trans h₂ h₁⟩

/-- Model of `IssueScorer.rank_issues` (`scorer.py` 335-360): score every pair with the
default `repo_health=None`, then `scored.sort(key=lambda x: x.score,
reverse=True)`. CPython's sort is a stable descending sort here; it is
modelled by the (stable) insertion sort, which produces the same list: a
stable sorted permutation is unique. -/
def rank_issues (analyzed_issues : List (IssueData × IssueAnalysis))
    (user_skill user_time : String) : List ScoredIssue :=
  let scored := analyzed_issues.map (fun p => score_issue p.1 p.2 user_skill user_time none)
  List.insertionSort rankLE scored

/- ====================== Analysis cache key (`cache.py`) ====================== -/

/-- UTF-8 encoding of one character as byte values (models Python
`str.encode()`). -/
def utf8EncodeChar (c : Char) : List Nat :=
  let n := c.toNat
  if n < 128 then [n]
  else if n < 2048 then [192 + n / 64, 128 + n % 64]
  else if n < 65536 then [224 + n / 4096, 128 + (n / 64) % 64, 128 + n % 64]
  else [240 + n / 262144, 128 + (n / 4096) % 64, 128 + (n / 64) % 64, 128 + n % 64]

/-- UTF-8 bytes of a string (models Python `str.encode()`). -/
def utf8Bytes (s : String) : List Nat :=
  s.data.foldr (fun c acc => utf8EncodeChar c ++ acc) []

/-- Little-endian byte rendering of `n`, exactly `k` bytes. -/
def toLE : Nat → Nat → List Nat
  | 0, _ => []
  | k + 1, n => n % 256 :: toLE k (n / 256)

/-- MD5 padding (RFC 1321): append `0x80`, zero-fill to 56 mod 64, then the
bit length as 8 little-endian bytes. -/
def md5pad (msg : List Nat) : List Nat :=
  msg ++ 128 :: List.replicate ((119 - msg.length % 64) % 64) 0 ++ toLE 8 (msg.length * 8)

/-- Split a list into consecutive chunks of `n + 1` elements. -/
def chunksOfSucc (n : Nat) (l : List Nat) : List (List Nat) :=
  if h : l = [] then []
  else l.take (n + 1) :: chunksOfSucc n (l.drop (n + 1))
termination_by l.length
decreasing_by
  simp only [List.length_drop]
  have := List.length_pos.mpr h
  omega

/-- Little-endian 32-bit word from up to four bytes. -/
def leWord (bytes : List Nat) : Nat :=
  bytes.getD 0 0 + 256 * bytes.getD 1 0 + 65536 * bytes.getD 2 0 + 16777216 * bytes.getD 3 0

/-- The 64 MD5 sine constants `K[i] = floor(abs(sin(i+1)) * 2^32)`. -/
def md5K : List Nat :=
  [3614090360, 3905402710, 606105819, 3250441966, 4118548399, 1200080426, 2821735955, 4249261313,
   1770035416, 2336552879, 4294925233, 2304563134, 1804603682, 4254626195, 2792965006, 1236535329,
   4129170786, 3225465664, 643717713, 3921069994, 3593408605, 38016083, 3634488961, 3889429448,
   568446438, 3275163606, 4107603335, 1163531501, 2850285829, 4243563512, 1735328473, 2368359562,
   4294588738, 2272392833, 1839030562, 4259657740, 2763975236, 1272893353, 4139469664, 3200236656,
   681279174, 3936430074, 3572445317, 76029189, 3654602809, 3873151461, 530742520, 3299628645,
   4096336452, 1126891415, 2878612391, 4237533241, 1700485571, 2399980690, 4293915773, 2240044497,
   1873313359, 4264355552, 2734768916, 1309151649, 4149444226, 3174756917, 718787259, 3951481745]

/-- The 64 MD5 per-round left-rotation amounts. -/
def md5S : List Nat :=
  [7, 12, 17, 22, 7, 12, 17, 22, 7, 12, 17, 22, 7, 12, 17, 22,
   5, 9, 14, 20, 5, 9, 14, 20, 5, 9, 14, 20, 5, 9, 14, 20,
   4, 11, 16, 23, 4, 11, 16, 23, 4, 11, 16, 23, 4, 11, 16, 23,
   6, 10, 15, 21, 6, 10, 15, 21, 6, 10, 15, 21, 6, 10, 15, 21]

/-- 32-bit left rotation (operands are kept `< 2^32`). -/
def rotl32 (x n : Nat) : Nat :=
  ((x * 2 ^ n) % 4294967296) + x / 2 ^ (32 - n)

/-- The MD5 round mixing function for round `i`. -/
def md5F (i b c d : Nat) : Nat :=
  if i < 16 then (b &&& c) ||| ((b ^^^ 4294967295) &&& d)
  else if i < 32 then (d &&& b) ||| ((d ^^^ 4294967295) &&& c)
  else if i < 48 then b ^^^ c ^^^ d
  else c ^^^ (b ||| (d ^^^ 4294967295))

/-- The MD5 message-word index for round `i`. -/
def md5G (i : Nat) : Nat :=
  if i < 16 then i
  else if i < 32 then (5 * i + 1) % 16
  else if i < 48 then (3 * i + 5) % 16
  else (7 * i) % 16

/-- One MD5 round on state `(a, b, c, d)`. -/
def md5Step (M : List Nat) (st : Nat × Nat × Nat × Nat) (i : Nat) : Nat × Nat × Nat × Nat :=
  let (a, b, c, d) := st
  let f := (md5F i b c d + a + md5K.getD i 0 + M.getD (md5G i) 0) % 4294967296
  (d, (b + rotl32 f (md5S.getD i 0)) % 4294967296, b, c)

/-- Process one 64-byte chunk. -/
def md5Chunk (st : Nat × Nat × Nat × Nat) (chunk : List Nat) : Nat × Nat × Nat × Nat :=
  let M := (chunksOfSucc 3 chunk).map leWord
  let (a, b, c, d) := (List.range 64).foldl (md5Step M) st
  let (a0, b0, c0, d0) := st
  ((a0 + a) % 4294967296, (b0 + b) % 4294967296, (c0 + c) % 4294967296, (d0 + d) % 4294967296)

/-- MD5 digest bytes of a byte string. -/
def md5Bytes (msg : List Nat) : List Nat :=
  let (a, b, c, d) :=
    (chunksOfSucc 63 (md5pad msg)).foldl md5Chunk
      (1732584193, 4023233417, 2562383102, 271733878)
  toLE 4 a ++ toLE 4 b ++ toLE 4 c ++ toLE 4 d

/-- Lower-case hex digit. -/
def hexDigitChar (n : Nat) : Char :=
  if n < 10 then Char.ofNat (48 + n) else Char.ofNat (87 + n)

/-- Lower-case hex rendering of a byte list. -/
def hexOfBytes (bs : List Nat) : List Char :=
  bs.foldr (fun b acc => hexDigitChar (b / 16) :: hexDigitChar (b % 16) :: acc) []

/-- Model of Python `hashlib.md5(s.encode()).hexdigest()`. -/
def md5hex (s : String) : String := ⟨hexOfBytes (md5Bytes (utf8Bytes s))⟩

/-- Python `str(n)` for a natural number. -/
def natChars (n : Nat) : List Char :=
  if n = 0 then ['0'] else (Nat.digits 10 n).reverse.map Nat.digitChar

/-- Python `str(n)` as a `String`. -/
def natStr (n : Nat) : String := ⟨natChars n⟩

/-- Model of `updated_str` in `CacheManager._make_llm_key`:
`issue_updated_at.isoformat() if issue_updated_at else "unknown"` (a datetime
is modelled by its ISO rendering, see module comment). -/
def updated_str : Option String → String
  | some s => s
  | none => "unknown"

/-- The `key_data` f-string built inside `CacheManager._make_llm_key`
(`cache.py` 153-176). -/
def llm_key_data (issue_id : Nat) (repo_name : String) (issue_updated_at : Option String)
    (user_skill user_time : String) : String :=
  "llm:" ++ repo_name ++ ":" ++ natStr issue_id ++ ":" ++ updated_str issue_updated_at
    ++ ":" ++ user_skill ++ ":" ++ user_time

/-- Model of `CacheManager._make_llm_key` (`cache.py` 153-176): md5 hexdigest of the
key data. -/
def _make_llm_key (issue_id : Nat) (repo_name : String) (issue_updated_at : Option String)
    (user_skill user_time : String) : String :=
  md5hex (llm_key_data issue_id repo_name issue_updated_at user_skill user_time)

/- Helpers for the key-injectivity analysis: splitting a character list at
every colon, and the inverse join. -/

/-- Split a character list at every `':'` (never returns `[]`). -/
def splitCols : List Char → List (List Char)
  | [] => [[]]
  | c :: rest =>
    if c = ':' then [] :: splitCols rest
    else (c :: (splitCols rest).headD []) :: (splitCols rest).tail

/-- Join segments with `':'`; left inverse of `splitCols`. -/
def joinCols : List (List Char) → List Char
  | [] => []
  | [s] => s
  | s :: t :: ss => s ++ ':' :: joinCols (t :: ss)

/- ================= Serialized analyses and the LLM cache ================== -/

/-- A JSON-able field value of the serialized `IssueAnalysis` dict. -/
inductive FieldValue where
  | str (s : String)
  | int (n : Int)
  | strList (l : List String)
  deriving DecidableEq, Repr

/-- The dict form of an analysis (Python `dict[str, object]`), as an
association list. -/
abbrev AnalysisDict := List (String × FieldValue)

/-- Pydantic `IssueAnalysis.model_dump()`: the field-name → value dict. -/
def model_dump (a : IssueAnalysis) : AnalysisDict :=
  [("difficulty", .str a.difficulty),
   ("difficulty_confidence", .str a.difficulty_confidence),
   ("difficulty_reasoning", .str a.difficulty_reasoning),
   ("estimated_time", .str a.estimated_time),
   ("time_confidence", .str a.time_confidence),
   ("time_reasoning", .str a.time_reasoning),
   ("summary", .str a.summary),
   ("technical_requirements", .strList a.technical_requirements),
   ("clarity_score", .int a.clarity_score),
   ("clarity_reasoning", .str a.clarity_reasoning),
   ("recommendation", .str a.recommendation)]

/-- Fetch a required string field (pydantic validation: present and a string). -/
def getStr (d : AnalysisDict) (k : String) : Option String :=
  match List.lookup k d with
  | some (.str s) => some s
  | _ => none

/-- Fetch a string field that has a pydantic default. -/
def getStrD (d : AnalysisDict) (k dflt : String) : Option String :=
  match List.lookup k d with
  | some (.str s) => some s
  | some _ => none
  | none => some dflt

/-- Fetch a required int field. -/
def getInt (d : AnalysisDict) (k : String) : Option Int :=
  match List.lookup k d with
  | some (.int n) => some n
  | _ => none

/-- Fetch a required list-of-strings field. -/
def getStrList (d : AnalysisDict) (k : String) : Option (List String) :=
  match List.lookup k d with
  | some (.strList l) => some l
  | _ => none

/-- Python `IssueAnalysis(**cached)`: pydantic re-validation of a dict, with
the model's field defaults (`difficulty_reasoning`/`clarity_reasoning` default
`""`, `time_confidence` defaults `"medium"`); `none` models a pydantic
`ValidationError`. -/
def issueAnalysisOfDict (d : AnalysisDict) : Option IssueAnalysis := do
  let difficulty ← getStr d "difficulty"
  let difficulty_confidence ← getStr d "difficulty_confidence"
  let difficulty_reasoning ← getStrD d "difficulty_reasoning" ""
  let estimated_time ← getStr d "estimated_time"
  let time_confidence ← getStrD d "time_confidence" "medium"
  let time_reasoning ← getStr d "time_reasoning"
  let summary ← getStr d "summary"
  let technical_requirements ← getStrList d "technical_requirements"
  let clarity_score ← getInt d "clarity_score"
  let clarity_reasoning ← getStrD d "clarity_reasoning" ""
  let recommendation ← getStr d "recommendation"
  some { difficulty, difficulty_confidence, difficulty_reasoning, estimated_time,
         time_confidence, time_reasoning, summary, technical_requirements,
         clarity_score, clarity_reasoning, recommendation }

/-- The LLM-analysis half of `CacheManager`: disk entries (newest binding
first, so an overwrite shadows) plus the hit/miss counters. -/
structure LlmCache where
  entries : List (String × AnalysisDict)
  llm_hits : Nat
  llm_misses : Nat
  deriving DecidableEq, Repr

/-- Model of `CacheManager.get_llm_analysis` (`cache.py` 178-203): key lookup plus the
hit/miss counter side effect. -/
def get_llm_analysis (c : LlmCache) (issue_id : Nat) (repo_name : String)
    (issue_updated_at : Option String) (user_skill user_time : String) :
    Option AnalysisDict × LlmCache :=
  let key := _make_llm_key issue_id repo_name issue_updated_at user_skill user_time
  match List.lookup key c.entries with
  | some d => (some d, { c with llm_hits := c.llm_hits + 1 })
  | none => (none, { c with llm_misses := c.llm_misses + 1 })

/-- Model of `CacheManager.set_llm_analysis` (`cache.py` 205-226): store under the same
key (TTL expiry is outside this core's scope). -/
def set_llm_analysis (c : LlmCache) (issue_id : Nat) (repo_name : String)
    (issue_updated_at : Option String) (user_skill user_time : String)
    (analysis : AnalysisDict) : LlmCache :=
  let key := _make_llm_key issue_id repo_name issue_updated_at user_skill user_time
  { c with entries := (key, analysis) :: c.entries }

/-- Model of `IssueAnalyzer.analyze_issue` (`analyzer.py` 306-403). `assess` models the
external LangChain chain invocation (`prompt | llm | parser`, including the
advisory label hint, which only enriches the prompt); it may fail. The result
is (analysis-or-error, final cache state, whether the external assessment was
invoked). Note Python's `if cached:`—an empty dict is falsy and falls through
to the LLM call. -/
def analyze_issue (cache : Option LlmCache)
    (assess : IssueData → String → String → Except String IssueAnalysis)
    (issue : IssueData) (user_skill user_time : String) :
    Except String IssueAnalysis × Option LlmCache × Bool :=
  let missPath : Option LlmCache → Except String IssueAnalysis × Option LlmCache × Bool :=
    fun c? =>
      match assess issue user_skill user_time with
      | .error e => (.error e, c?, true)
      | .ok result =>
        (.ok result,
         c?.map (fun c =>
           set_llm_analysis c issue.id issue.repo_name issue.updated_at
             user_skill user_time (model_dump result)),
         true)
  match cache with
  | some c =>
    let r := get_llm_analysis c issue.id issue.repo_name issue.updated_at user_skill user_time
    match r.1 with
    | some d =>
      if d = [] then missPath (some r.2)
      else
        match issueAnalysisOfDict d with
        | some a => (.ok a, some r.2, false)
        | none => (.error "ValidationError: IssueAnalysis", some r.2, false)
    | none => missPath (some r.2)
  | none => missPath none

/-- The loop body of `IssueAnalyzer.analyze_batch` (`analyzer.py` 405-440):
`i` is the 0-based loop counter, `total` is `len(issues)`. Returns
(successful (issue, analysis) pairs, progress-callback invocations, final
cache). The progress callback is invoked before each attempt; a failed item
is skipped and the loop continues. -/
def analyze_batch_go
    (assess : IssueData → String → String → Except String IssueAnalysis)
    (user_skill user_time : String) (total : Nat) :
    Option LlmCache → Nat → List IssueData →
      List (IssueData × IssueAnalysis) × List (Nat × Nat × String) × Option LlmCache
  | c, _, [] => ([], [], c)
  | c, i, issue :: rest =>
    let step := analyze_issue c assess issue user_skill user_time
    let next := analyze_batch_go assess user_skill user_time total step.2.1 (i + 1) rest
    match step.1 with
    | .ok analysis => ((issue, analysis) :: next.1, (i + 1, total, issue.title) :: next.2.1, next.2.2)
    | .error _ => (next.1, (i + 1, total, issue.title) :: next.2.1, next.2.2)

/-- Model of `IssueAnalyzer.analyze_batch` (`analyzer.py` 405-440). -/
def analyze_batch (assess : IssueData → String → String → Except String IssueAnalysis)
    (cache : Option LlmCache) (issues : List IssueData) (user_skill user_time : String) :
    List (IssueData × IssueAnalysis) × List (Nat × Nat × String) × Option LlmCache :=
  analyze_batch_go assess user_skill user_time issues.length cache 0 issues

/-- The per-issue attempt trace of a batch: each issue paired with the outcome
of its own `analyze_issue` call, run sequentially with the cache state left by
its predecessors. -/
def batchTrace (assess : IssueData → String → String → Except String IssueAnalysis)
    (user_skill user_time : String) :
    Option LlmCache → List IssueData → List (IssueData × Except String IssueAnalysis)
  | _, [] => []
  | c, issue :: rest =>
    let step := analyze_issue c assess issue user_skill user_time
    (issue, step.1) :: batchTrace assess user_skill user_time step.2.1 rest


/- ===================== Concrete fixtures (for witnesses) ===================== -/

/-- A score component carrying only a confidence (scores irrelevant to the
confidence rollup). -/
def mkComp (confidence : String) : ScoreComponent :=
  { name := "", score := 0, weight := 0, weighted_score := 0,
    confidence := confidence, reasoning := "", match_description := "" }

/-- A concrete issue, for instantiating universally quantified theorems. -/
def sampleIssue : IssueData :=
  { id := 42, title := "Fix typo in README", body := "There is a typo.",
    url := "https://example.invalid/42", repo_name := "octo/demo", repo_stars := 120,
    repo_description := "demo", labels := ["good first issue"],
    created_at := "2024-01-01T00:00:00", updated_at := some "2024-02-01T12:00:00",
    comments_count := 2, assignees := [] }

/-- A concrete analysis, for instantiating universally quantified theorems. -/
def sampleAnalysis : IssueAnalysis :=
  { difficulty := "beginner", difficulty_confidence := "high",
    difficulty_reasoning := "clearly labelled", estimated_time := "half_day",
    time_confidence := "high", time_reasoning := "small change",
    summary := "Fix a typo.", technical_requirements := ["markdown"],
    clarity_score := 8, clarity_reasoning := "clear", recommendation := "good match" }

/-- A second concrete analysis (returned by the stub assessment function). -/
def sampleAnalysis2 : IssueAnalysis :=
  { difficulty := "intermediate", difficulty_confidence := "medium",
    difficulty_reasoning := "some context needed", estimated_time := "full_day",
    time_confidence := "low", time_reasoning := "unclear scope",
    summary := "Refactor a module.", technical_requirements := ["python"],
    clarity_score := 5, clarity_reasoning := "", recommendation := "maybe" }

/-- A stub external assessment function that always succeeds. -/
def sampleAssess : IssueData -> String -> String -> Except String IssueAnalysis :=
  fun _ _ _ => .ok sampleAnalysis2

/-- A cache holding the serialized `sampleAnalysis` under `sampleIssue`'s key. -/
def sampleCache : LlmCache :=
  { entries :=
      [(_make_llm_key sampleIssue.id sampleIssue.repo_name sampleIssue.updated_at
          "beginner" "half_day", model_dump sampleAnalysis)],
    llm_hits := 0, llm_misses := 0 }

/- ============================ Helper lemmas ============================ -/

theorem toNat_ofNat_of_lt {n : Nat} (h : n < 55296) : (Char.ofNat n).toNat = n := by
  rw [Char.ofNat, dif_pos (Or.inl h)]
  rfl

theorem lowerChar_idem (c : Char) : lowerChar (lowerChar c) = lowerChar c := by
  unfold lowerChar
  by_cases h : 65 ≤ c.toNat ∧ c.toNat ≤ 90
  · rw [if_pos h, if_neg]
    rw [toNat_ofNat_of_lt (by omega)]
    omega
  · rw [if_neg h, if_neg h]

theorem pyLower_idem (s : String) : pyLower (pyLower s) = pyLower s := by
  simp only [pyLower, List.map_map]
  congr 1
  apply List.map_congr_left
  intro c _
  exact lowerChar_idem c

theorem absDiff_eq_zero {i j : Nat} : absDiff i j = 0 ↔ i = j := by
  unfold absDiff
  omega

/- ==================== C7, C8, C10: component score tables ==================== -/

/-- C7: for every actual/preferred difficulty string, the difficulty component
score is 1.0 when both map to the same ordinal of
`[beginner, intermediate, advanced]`, 0.6 at ordinal distance exactly 1, 0.2
at distance ≥ 2, and 0.5 when either string is not recognized. -/
theorem difficulty_score_table (actual preferred : String) :
    (∀ i j, listIndex (pyLower actual) difficulty_order = some i →
        listIndex (pyLower preferred) difficulty_order = some j →
        calculate_difficulty_score actual preferred =
          if i = j then 1.0 else if absDiff i j = 1 then 0.6 else 0.2) ∧
    (listIndex (pyLower actual) difficulty_order = none ∨
        listIndex (pyLower preferred) difficulty_order = none →
      calculate_difficulty_score actual preferred = 0.5) := by
  constructor
  · intro i j hi hj
    simp only [calculate_difficulty_score, hi, hj]
    rcases eq_or_ne i j with h | h
    · rw [if_pos (absDiff_eq_zero.mpr h), if_pos h]
    · rw [if_neg (fun h0 => h (absDiff_eq_zero.mp h0)), if_neg h]
  · intro h
    rcases h with h | h <;> simp only [calculate_difficulty_score, h] <;>
      cases listIndex (pyLower actual) difficulty_order <;>
      cases listIndex (pyLower preferred) difficulty_order <;> rfl

/-- Witness for `difficulty_score_table` at concrete inputs. -/
theorem difficulty_score_table_witness :
    calculate_difficulty_score "beginner" "advanced" = 0.2 ∧
    calculate_difficulty_score "expert" "beginner" = 0.5 := by
  constructor
  · have h := (difficulty_score_table "beginner" "advanced").1 0 2 (by decide) (by decide)
    rw [h]
    norm_num [absDiff]
  · exact (difficulty_score_table "expert" "beginner").2 (Or.inl (by decide))

/-- C8: for every actual/preferred time string, the time component score is
1.0 when both map to the same ordinal of
`[quick_win, half_day, full_day, weekend, deep_dive]`, 0.7 at ordinal distance
1, 0.4 at distance 2, 0.1 at distance ≥ 3, and 0.5 when either string is not
recognized. -/
theorem time_score_table (actual preferred : String) :
    (∀ i j, listIndex (pyLower actual) time_order = some i →
        listIndex (pyLower preferred) time_order = some j →
        calculate_time_score actual preferred =
          if i = j then 1.0
          else if absDiff i j = 1 then 0.7
          else if absDiff i j = 2 then 0.4
          else 0.1) ∧
    (listIndex (pyLower actual) time_order = none ∨
        listIndex (pyLower preferred) time_order = none →
      calculate_time_score actual preferred = 0.5) := by
  constructor
  · intro i j hi hj
    simp only [calculate_time_score, hi, hj]
    rcases eq_or_ne i j with h | h
    · rw [if_pos (absDiff_eq_zero.mpr h), if_pos h]
    · rw [if_neg (fun h0 => h (absDiff_eq_zero.mp h0)), if_neg h]
  · intro h
    rcases h with h | h <;> simp only [calculate_time_score, h] <;>
      cases listIndex (pyLower actual) time_order <;>
      cases listIndex (pyLower preferred) time_order <;> rfl

/-- Witness for `time_score_table` at concrete inputs. -/
theorem time_score_table_witness :
    calculate_time_score "quick_win" "full_day" = 0.4 ∧
    calculate_time_score "quick_win" "later" = 0.5 := by
  constructor
  · have h := (time_score_table "quick_win" "full_day").1 0 2 (by decide) (by decide)
    rw [h]
    norm_num [absDiff]
  · exact (time_score_table "quick_win" "later").2 (Or.inr (by decide))

/-- C10: difficulty and time scoring are case-insensitive in both arguments:
lower-casing either argument before the call does not change the result, and
in particular `calculate_difficulty_score "BEGINNER" "beginner" = 1.0`. -/
theorem score_case_insensitive (a p : String) :
    calculate_difficulty_score (pyLower a) p = calculate_difficulty_score a p ∧
    calculate_difficulty_score a (pyLower p) = calculate_difficulty_score a p ∧
    calculate_time_score (pyLower a) p = calculate_time_score a p ∧
    calculate_time_score a (pyLower p) = calculate_time_score a p ∧
    calculate_difficulty_score "BEGINNER" "beginner" = 1.0 := by
  have h1 : listIndex (pyLower "BEGINNER") difficulty_order = some 0 := by decide
  have h2 : listIndex (pyLower "beginner") difficulty_order = some 0 := by decide
  refine ⟨?_, ?_, ?_, ?_, ?_⟩ <;>
    simp only [calculate_difficulty_score, calculate_time_score, pyLower_idem, h1, h2]
  norm_num [absDiff]

/- ==================== C2: weight invariant and total score ==================== -/

theorem calculate_difficulty_score_bounds (a p : String) :
    0 ≤ calculate_difficulty_score a p ∧ calculate_difficulty_score a p ≤ 1 := by
  unfold calculate_difficulty_score
  cases listIndex (pyLower a) difficulty_order <;>
    cases listIndex (pyLower p) difficulty_order <;>
    dsimp only <;> constructor <;> first
      | (split_ifs <;> norm_num)
      | norm_num

theorem calculate_time_score_bounds (a p : String) :
    0 ≤ calculate_time_score a p ∧ calculate_time_score a p ≤ 1 := by
  unfold calculate_time_score
  cases listIndex (pyLower a) time_order <;>
    cases listIndex (pyLower p) time_order <;>
    dsimp only <;> constructor <;> first
      | (split_ifs <;> norm_num)
      | norm_num

theorem calculate_health_score_bounds (h : Option RepoHealth) :
    0 ≤ calculate_health_score h ∧ calculate_health_score h ≤ 1 := by
  cases h with
  | none => constructor <;> norm_num [calculate_health_score]
  | some rh =>
    simp only [calculate_health_score]
    constructor
    · refine le_min ?_ (by norm_num)
      split_ifs <;> norm_num
    · exact le_trans (min_le_right _ _) (by norm_num)

theorem calculate_clarity_score_bounds (c : Int) :
    0 ≤ calculate_clarity_score c ∧ calculate_clarity_score c ≤ 1 := by
  unfold calculate_clarity_score
  have h0 : (0 : ℤ) ≤ max 0 (min c 10) := le_max_left _ _
  have h10 : max 0 (min c 10) ≤ 10 := max_le (by norm_num) (min_le_right _ _)
  constructor
  · apply div_nonneg _ (by norm_num)
    exact_mod_cast h0
  · rw [div_le_one (by norm_num)]
    exact_mod_cast h10

/-- C2: the four configured weights sum to 1.0, and for every input the total
score of `score_issue` is exactly the weighted sum of the four component raw
scores and lies in [0, 1]. -/
theorem score_issue_total_spec (issue : IssueData) (analysis : IssueAnalysis)
    (user_skill user_time : String) (repo_health : Option RepoHealth) :
    DIFFICULTY_MATCH_WEIGHT + TIME_MATCH_WEIGHT + REPO_HEALTH_WEIGHT + ISSUE_CLARITY_WEIGHT = 1 ∧
    (score_issue issue analysis user_skill user_time repo_health).score =
      calculate_difficulty_score analysis.difficulty user_skill * DIFFICULTY_MATCH_WEIGHT
        + calculate_time_score analysis.estimated_time user_time * TIME_MATCH_WEIGHT
        + calculate_health_score repo_health * REPO_HEALTH_WEIGHT
        + calculate_clarity_score analysis.clarity_score * ISSUE_CLARITY_WEIGHT ∧
    0 ≤ (score_issue issue analysis user_skill user_time repo_health).score ∧
    (score_issue issue analysis user_skill user_time repo_health).score ≤ 1 := by
  have hsum : DIFFICULTY_MATCH_WEIGHT + TIME_MATCH_WEIGHT + REPO_HEALTH_WEIGHT
      + ISSUE_CLARITY_WEIGHT = 1 := by
    norm_num [DIFFICULTY_MATCH_WEIGHT, TIME_MATCH_WEIGHT, REPO_HEALTH_WEIGHT,
      ISSUE_CLARITY_WEIGHT]
  have hscore : (score_issue issue analysis user_skill user_time repo_health).score =
      calculate_difficulty_score analysis.difficulty user_skill * DIFFICULTY_MATCH_WEIGHT
        + calculate_time_score analysis.estimated_time user_time * TIME_MATCH_WEIGHT
        + calculate_health_score repo_health * REPO_HEALTH_WEIGHT
        + calculate_clarity_score analysis.clarity_score * ISSUE_CLARITY_WEIGHT := by
    cases repo_health <;>
      simp [score_issue, List.map_cons, List.map_nil, List.sum_cons, List.sum_nil] <;> ring
  obtain ⟨d0, d1⟩ := calculate_difficulty_score_bounds analysis.difficulty user_skill
  obtain ⟨t0, t1⟩ := calculate_time_score_bounds analysis.estimated_time user_time
  obtain ⟨h0, h1⟩ := calculate_health_score_bounds repo_health
  obtain ⟨c0, c1⟩ := calculate_clarity_score_bounds analysis.clarity_score
  refine ⟨hsum, hscore, ?_, ?_⟩ <;>
    rw [hscore] <;>
    simp only [DIFFICULTY_MATCH_WEIGHT, TIME_MATCH_WEIGHT, REPO_HEALTH_WEIGHT,
      ISSUE_CLARITY_WEIGHT] <;>
    nlinarith

/- ==================== C3: overall-confidence rollup ==================== -/

/-- C3: over the data model's confidence domain {high, medium, low}, the
rollup of four components is "low" if any component confidence is "low",
else "high" if all four are "high", else "medium". -/
theorem overall_confidence_rollup (c1 c2 c3 c4 : ScoreComponent)
    (h1 : c1.confidence = "high" ∨ c1.confidence = "medium" ∨ c1.confidence = "low")
    (h2 : c2.confidence = "high" ∨ c2.confidence = "medium" ∨ c2.confidence = "low")
    (h3 : c3.confidence = "high" ∨ c3.confidence = "medium" ∨ c3.confidence = "low")
    (h4 : c4.confidence = "high" ∨ c4.confidence = "medium" ∨ c4.confidence = "low") :
    _calculate_overall_confidence [c1, c2, c3, c4] =
      if c1.confidence = "low" ∨ c2.confidence = "low" ∨ c3.confidence = "low"
          ∨ c4.confidence = "low" then "low"
      else if c1.confidence = "high" ∧ c2.confidence = "high" ∧ c3.confidence = "high"
          ∧ c4.confidence = "high" then "high"
      else "medium" := by
  rcases h1 with e1 | e1 | e1 <;> rcases h2 with e2 | e2 | e2 <;>
    rcases h3 with e3 | e3 | e3 <;> rcases h4 with e4 | e4 | e4 <;>
    (simp only [_calculate_overall_confidence, List.map_cons, List.map_nil, e1, e2, e3, e4]
     decide)

/-- Witness for `overall_confidence_rollup`: the three spec examples. -/
theorem overall_confidence_rollup_witness :
    _calculate_overall_confidence [mkComp "high", mkComp "high", mkComp "low", mkComp "high"]
        = "low" ∧
    _calculate_overall_confidence [mkComp "high", mkComp "high", mkComp "high", mkComp "high"]
        = "high" ∧
    _calculate_overall_confidence [mkComp "high", mkComp "medium", mkComp "high", mkComp "high"]
        = "medium" := by
  refine ⟨?_, ?_, ?_⟩
  · rw [overall_confidence_rollup (mkComp "high") (mkComp "high") (mkComp "low") (mkComp "high")
      (Or.inl rfl) (Or.inl rfl) (Or.inr (Or.inr rfl)) (Or.inl rfl)]
    decide
  · rw [overall_confidence_rollup (mkComp "high") (mkComp "high") (mkComp "high") (mkComp "high")
      (Or.inl rfl) (Or.inl rfl) (Or.inl rfl) (Or.inl rfl)]
    decide
  · rw [overall_confidence_rollup (mkComp "high") (mkComp "medium") (mkComp "high") (mkComp "high")
      (Or.inl rfl) (Or.inr (Or.inl rfl)) (Or.inl rfl) (Or.inl rfl)]
    decide

/- ==================== C4: ranking is a stable descending sort ==================== -/

theorem filter_orderedInsert (q : ℚ) (x : ScoredIssue) (l : List ScoredIssue) :
    (List.orderedInsert rankLE x l).filter (fun s => s.score == q) =
      if x.score = q then x :: l.filter (fun s => s.score == q)
      else l.filter (fun s => s.score == q) := by
  induction l with
  | nil =>
    simp only [List.orderedInsert, List.filter_cons, List.filter_nil]
    by_cases h : x.score = q <;> simp [h]
  | cons y ys ih =>
    by_cases hr : rankLE x y
    · simp only [List.orderedInsert, if_pos hr, List.filter_cons]
      by_cases hx : x.score = q <;> simp [hx]
    · have hxy : x.score < y.score := not_le.mp (by simpa [rankLE] using hr)
      simp only [List.orderedInsert, if_neg hr, List.filter_cons, ih]
      by_cases hy : y.score = q <;> by_cases hx : x.score = q
      · exact absurd (hx.trans hy.symm) (ne_of_lt hxy)
      all_goals simp [hx, hy]

theorem filter_insertionSort (q : ℚ) (l : List ScoredIssue) :
    (List.insertionSort rankLE l).filter (fun s => s.score == q) =
      l.filter (fun s => s.score == q) := by
  induction l with
  | nil => rfl
  | cons x xs ih =>
    simp only [List.insertionSort, filter_orderedInsert, List.filter_cons, ih]
    by_cases h : x.score = q <;> simp [h]

/-- C4: `rank_issues` returns a permutation of the scored input list, sorted
in descending order of total score, and it is stable: for every score value
the sublist of issues having that score is exactly the corresponding sublist
of the input, in input order. -/
theorem rank_issues_sorted_stable (analyzed_issues : List (IssueData × IssueAnalysis))
    (user_skill user_time : String) :
    (rank_issues analyzed_issues user_skill user_time).Perm
      (analyzed_issues.map (fun p => score_issue p.1 p.2 user_skill user_time none)) ∧
    List.Sorted (fun a b : ScoredIssue => b.score ≤ a.score)
      (rank_issues analyzed_issues user_skill user_time) ∧
    ∀ q : ℚ,
      (rank_issues analyzed_issues user_skill user_time).filter (fun s => s.score == q) =
        (analyzed_issues.map (fun p => score_issue p.1 p.2 user_skill user_time none)).filter
          (fun s => s.score == q) := by
  refine ⟨List.perm_insertionSort _ _, ?_, fun q => filter_insertionSort q _⟩
  exact List.sorted_insertionSort rankLE _

/- ==================== C9: ranked issues always have confidence "low" ==================== -/

theorem score_issue_none_health_confidence (issue : IssueData) (analysis : IssueAnalysis)
    (user_skill user_time : String) :
    (score_issue issue analysis user_skill user_time none).overall_confidence = "low" := by
  simp only [score_issue, _calculate_overall_confidence, List.map_cons, List.map_nil]
  rw [if_pos]
  refine List.mem_cons_of_mem _ (List.mem_cons_of_mem _ ?_)
  rw [(by decide : pyLower "low" = "low")]
  exact List.mem_cons_self _ _

/-- C9: every issue scored through `rank_issues` has overall confidence
"low": `rank_issues` never passes repo-health data, the health component then
carries confidence "low", and the conservative rollup propagates it. -/
theorem rank_issues_confidence_low (analyzed_issues : List (IssueData × IssueAnalysis))
    (user_skill user_time : String) (s : ScoredIssue)
    (hs : s ∈ rank_issues analyzed_issues user_skill user_time) :
    s.overall_confidence = "low" := by
  unfold rank_issues at hs
  have hs' := (List.perm_insertionSort rankLE _).mem_iff.mp hs
  obtain ⟨p, _, rfl⟩ := List.mem_map.mp hs'
  exact score_issue_none_health_confidence p.1 p.2 user_skill user_time

/-- Witness for `rank_issues_confidence_low` on a concrete singleton batch. -/
theorem rank_issues_confidence_low_witness :
    (score_issue sampleIssue sampleAnalysis "beginner" "half_day" none).overall_confidence
      = "low" := by
  apply rank_issues_confidence_low [(sampleIssue, sampleAnalysis)] "beginner" "half_day"
  exact List.mem_cons_self _ _

/- ==================== C5: batch semantics ==================== -/

theorem analyze_batch_go_spec
    (assess : IssueData → String → String → Except String IssueAnalysis)
    (user_skill user_time : String) (total : Nat) :
    ∀ (issues : List IssueData) (c : Option LlmCache) (i : Nat),
      (analyze_batch_go assess user_skill user_time total c i issues).1 =
        (batchTrace assess user_skill user_time c issues).filterMap
          (fun p => match p.2 with | .ok a => some (p.1, a) | .error _ => none) ∧
      (analyze_batch_go assess user_skill user_time total c i issues).2.1 =
        (List.enumFrom i issues).map (fun p => (p.1 + 1, total, p.2.title)) := by
  intro issues
  induction issues with
  | nil => intro c i; exact ⟨rfl, rfl⟩
  | cons issue rest ih =>
    intro c i
    obtain ⟨ih1, ih2⟩ := ih (analyze_issue c assess issue user_skill user_time).2.1 (i + 1)
    simp only [analyze_batch_go, batchTrace, List.enumFrom, List.map_cons, List.filterMap_cons]
    cases hstep : (analyze_issue c assess issue user_skill user_time).1 <;>
      simp [hstep, ih1, ih2]

/-- C5: `analyze_batch` processes the issues sequentially in input order; the
progress callback fires before every attempt with the 1-based index, the
total count and the issue title (the second returned component is the exact
trace of those calls); a failing issue is skipped and the rest continue: the
returned pairs are exactly the successful attempts of the sequential trace,
in input order. -/
theorem analyze_batch_spec
    (assess : IssueData → String → String → Except String IssueAnalysis)
    (cache : Option LlmCache) (issues : List IssueData) (user_skill user_time : String) :
    (analyze_batch assess cache issues user_skill user_time).1 =
      (batchTrace assess user_skill user_time cache issues).filterMap
        (fun p => match p.2 with | .ok a => some (p.1, a) | .error _ => none) ∧
    (analyze_batch assess cache issues user_skill user_time).2.1 =
      issues.enum.map (fun p => (p.1 + 1, issues.length, p.2.title)) :=
  analyze_batch_go_spec assess user_skill user_time issues.length issues cache 0

/- ==================== C6: cache hit, round-trip, cache miss ==================== -/

theorem issueAnalysisOfDict_model_dump (a : IssueAnalysis) :
    issueAnalysisOfDict (model_dump a) = some a := rfl

/-- C6: with a cache present, (i) a hit on the issue's key deserializes and
returns the stored analysis without invoking the external assessment
function; (ii) the dict round-trip reconstructs an equivalent analysis;
(iii) a miss invokes the assessment and stores its serialized result under
the same key. -/
theorem analyze_issue_cache_spec (c : LlmCache)
    (assess : IssueData → String → String → Except String IssueAnalysis)
    (issue : IssueData) (user_skill user_time : String) (a : IssueAnalysis) :
    (List.lookup (_make_llm_key issue.id issue.repo_name issue.updated_at user_skill user_time)
        c.entries = some (model_dump a) →
      analyze_issue (some c) assess issue user_skill user_time =
        (.ok a, some { c with llm_hits := c.llm_hits + 1 }, false)) ∧
    issueAnalysisOfDict (model_dump a) = some a ∧
    (List.lookup (_make_llm_key issue.id issue.repo_name issue.updated_at user_skill user_time)
        c.entries = none →
      ∀ r : IssueAnalysis, assess issue user_skill user_time = .ok r →
        analyze_issue (some c) assess issue user_skill user_time =
          (.ok r,
           some { entries :=
                    (_make_llm_key issue.id issue.repo_name issue.updated_at user_skill
                       user_time, model_dump r) :: c.entries,
                  llm_hits := c.llm_hits,
                  llm_misses := c.llm_misses + 1 },
           true)) := by
  refine ⟨?_, issueAnalysisOfDict_model_dump a, ?_⟩
  · intro hhit
    simp only [analyze_issue, get_llm_analysis, hhit]
    rw [if_neg (by simp [model_dump])]
    rw [issueAnalysisOfDict_model_dump]
  · intro hmiss r hr
    simp only [analyze_issue, get_llm_analysis, hmiss, hr, set_llm_analysis]
    rfl

/-- Witness for `analyze_issue_cache_spec`: a concrete hit (no assessment
call) and a concrete miss (result stored under the key). -/
theorem analyze_issue_cache_spec_witness :
    analyze_issue (some sampleCache) sampleAssess sampleIssue "beginner" "half_day" =
      (.ok sampleAnalysis, some { sampleCache with llm_hits := 1 }, false) ∧
    analyze_issue (some { entries := [], llm_hits := 0, llm_misses := 0 }) sampleAssess
        sampleIssue "beginner" "half_day" =
      (.ok sampleAnalysis2,
       some { entries :=
                [(_make_llm_key sampleIssue.id sampleIssue.repo_name sampleIssue.updated_at
                    "beginner" "half_day", model_dump sampleAnalysis2)],
              llm_hits := 0,
              llm_misses := 1 },
       true) := by
  constructor
  · exact (analyze_issue_cache_spec sampleCache sampleAssess sampleIssue "beginner" "half_day"
      sampleAnalysis).1 (by simp [sampleCache, List.lookup])
  · exact (analyze_issue_cache_spec { entries := [], llm_hits := 0, llm_misses := 0 }
      sampleAssess sampleIssue "beginner" "half_day" sampleAnalysis).2.2 rfl sampleAnalysis2 rfl

/- ==================== C1: cache-key determinism and collisions ==================== -/

theorem string_data_append (s t : String) : (s ++ t).data = s.data ++ t.data := by
  cases s
  cases t
  rfl

theorem string_data_inj {s t : String} (h : s.data = t.data) : s = t := by
  cases s
  cases t
  simp only [] at h
  rw [h]

theorem splitCols_ne_nil (l : List Char) : splitCols l ≠ [] := by
  cases l with
  | nil => simp [splitCols]
  | cons c rest =>
    simp only [splitCols]
    split_ifs <;> simp

theorem splitCols_cons_of_exists (l : List Char) : ∃ s ss, splitCols l = s :: ss := by
  cases e : splitCols l with
  | nil => exact absurd e (splitCols_ne_nil l)
  | cons s ss => exact ⟨s, ss, rfl⟩

theorem joinCols_splitCols (l : List Char) : joinCols (splitCols l) = l := by
  induction l with
  | nil => rfl
  | cons c rest ih =>
    by_cases hc : c = ':'
    · subst hc
      simp only [splitCols, if_pos rfl]
      obtain ⟨s, ss, hss⟩ := splitCols_cons_of_exists rest
      rw [hss]
      show ':' :: joinCols (s :: ss) = ':' :: rest
      rw [← hss, ih]
    · simp only [splitCols, if_neg hc]
      obtain ⟨s, ss, hss⟩ := splitCols_cons_of_exists rest
      rw [hss]
      simp only [List.headD_cons, List.tail_cons]
      cases ss with
      | nil =>
        have hrest : rest = s := by rw [← ih, hss]; rfl
        simp [joinCols, hrest]
      | cons t ts =>
        have hj : joinCols ((c :: s) :: t :: ts) = c :: joinCols (s :: t :: ts) := rfl
        rw [hj, ← hss, ih]

theorem splitCols_inj {a b : List Char} (h : splitCols a = splitCols b) : a = b := by
  rw [← joinCols_splitCols a, h, joinCols_splitCols]

theorem splitCols_cons_colon (rest : List Char) :
    splitCols (':' :: rest) = [] :: splitCols rest := by
  simp [splitCols]

theorem splitCols_cons_ne {c : Char} (hc : ¬c = ':') (rest : List Char) :
    splitCols (c :: rest) =
      (c :: (splitCols rest).headD []) :: (splitCols rest).tail := by
  simp [splitCols, hc]

theorem splitCols_append (a b : List Char) :
    splitCols (a ++ ':' :: b) = splitCols a ++ splitCols b := by
  induction a with
  | nil => simp [splitCols]
  | cons c a' ih =>
    by_cases hc : c = ':'
    · subst hc
      rw [List.cons_append, splitCols_cons_colon, splitCols_cons_colon, ih, List.cons_append]
    · rw [List.cons_append, splitCols_cons_ne hc, splitCols_cons_ne hc, ih]
      obtain ⟨s, ss, hss⟩ := splitCols_cons_of_exists a'
      rw [hss]
      simp

theorem splitCols_colonFree {l : List Char} (h : ':' ∉ l) : splitCols l = [l] := by
  induction l with
  | nil => rfl
  | cons c rest ih =>
    have hc : ¬c = ':' := fun e => h (e ▸ List.mem_cons_self c rest)
    have h' : ':' ∉ rest := fun hm => h (List.mem_cons_of_mem _ hm)
    simp [splitCols, hc, ih h']

theorem digitChar_ne_colon {d : Nat} (hd : d < 10) : Nat.digitChar d ≠ ':' := by
  interval_cases d <;> decide

theorem digitChar_injOn {d e : Nat} (hd : d < 10) (he : e < 10)
    (h : Nat.digitChar d = Nat.digitChar e) : d = e := by
  interval_cases d <;> interval_cases e <;> revert h <;> decide

theorem natChars_colonFree (n : Nat) : ':' ∉ natChars n := by
  unfold natChars
  split_ifs with h
  · decide
  · intro hmem
    obtain ⟨d, hd, hdc⟩ := List.mem_map.mp hmem
    have hd10 : d < 10 :=
      Nat.digits_lt_base (by norm_num) (List.mem_reverse.mp hd)
    exact digitChar_ne_colon hd10 hdc

theorem mapDigitChar_inj : ∀ {l₁ l₂ : List Nat}, (∀ x ∈ l₁, x < 10) → (∀ x ∈ l₂, x < 10) →
    l₁.map Nat.digitChar = l₂.map Nat.digitChar → l₁ = l₂
  | [], [], _, _, _ => rfl
  | [], _ :: _, _, _, h => by simp at h
  | _ :: _, [], _, _, h => by simp at h
  | x :: xs, y :: ys, h₁, h₂, h => by
    simp only [List.map_cons, List.cons.injEq] at h
    have hx := digitChar_injOn (h₁ x (List.mem_cons_self x xs)) (h₂ y (List.mem_cons_self y ys)) h.1
    have hxs := mapDigitChar_inj (fun z hz => h₁ z (List.mem_cons_of_mem _ hz))
      (fun z hz => h₂ z (List.mem_cons_of_mem _ hz)) h.2
    rw [hx, hxs]

theorem digits_eq_singleton_of_length_one {n d : Nat} (h : Nat.digits 10 n = [d]) (hn : n ≠ 0) :
    d ≠ 0 := by
  have hlast := Nat.getLast_digit_ne_zero 10 hn
  intro hd0
  apply hlast
  simp [h, hd0]

theorem natChars_zero_case {n : Nat} (hn : n ≠ 0) : natChars n ≠ ['0'] := by
  unfold natChars
  rw [if_neg hn]
  intro h
  have hlen := congrArg List.length h
  simp only [List.length_map, List.length_reverse, List.length_cons, List.length_nil] at hlen
  obtain ⟨d, hd⟩ : ∃ d, Nat.digits 10 n = [d] := by
    cases e : Nat.digits 10 n with
    | nil => rw [e] at hlen; simp at hlen
    | cons x xs =>
      cases xs with
      | nil => exact ⟨x, rfl⟩
      | cons y ys =>
        rw [e] at hlen
        simp at hlen
  rw [hd] at h
  simp only [List.reverse_cons, List.reverse_nil, List.nil_append, List.map_cons, List.map_nil,
    List.cons.injEq, and_true] at h
  have hd10 : d < 10 :=
    Nat.digits_lt_base (by norm_num) (by rw [hd]; exact List.mem_singleton_self d)
  have hd0 : d = 0 := digitChar_injOn hd10 (by norm_num) (by rw [h]; rfl)
  exact digits_eq_singleton_of_length_one hd hn hd0

theorem natChars_inj {m n : Nat} (h : natChars m = natChars n) : m = n := by
  by_cases hm : m = 0 <;> by_cases hn : n = 0
  · rw [hm, hn]
  · exfalso
    rw [hm] at h
    exact natChars_zero_case hn h.symm
  · exfalso
    rw [hn] at h
    exact natChars_zero_case hm h
  · unfold natChars at h
    rw [if_neg hm, if_neg hn] at h
    have hdig : Nat.digits 10 m = Nat.digits 10 n := by
      apply List.reverse_injective
      apply mapDigitChar_inj _ _ h
      · exact fun x hx => Nat.digits_lt_base (by norm_num) (List.mem_reverse.mp hx)
      · exact fun x hx => Nat.digits_lt_base (by norm_num) (List.mem_reverse.mp hx)
    rw [← Nat.ofDigits_digits 10 m, ← Nat.ofDigits_digits 10 n, hdig]

theorem updated_str_inj {u₁ u₂ : Option String} (h₁ : u₁ ≠ some "unknown")
    (h₂ : u₂ ≠ some "unknown") (h : updated_str u₁ = updated_str u₂) : u₁ = u₂ := by
  cases u₁ with
  | none =>
    cases u₂ with
    | none => rfl
    | some s => exact absurd (congrArg some h.symm) h₂
  | some s =>
    cases u₂ with
    | none => exact absurd (congrArg some h) h₁
    | some t => exact congrArg some h

theorem append_pair_inj {α : Type} {U₁ U₂ : List α} {a₁ b₁ a₂ b₂ : α}
    (h : U₁ ++ [a₁, b₁] = U₂ ++ [a₂, b₂]) : U₁ = U₂ ∧ a₁ = a₂ ∧ b₁ = b₂ := by
  have h' := congrArg List.reverse h
  simp only [List.reverse_append, List.reverse_cons, List.reverse_nil, List.nil_append,
    List.cons_append, List.cons.injEq] at h'
  exact ⟨List.reverse_injective h'.2.2, h'.2.1, h'.1⟩

theorem splitCols_llm_key_data (issue_id : Nat) (repo : String) (upd : Option String)
    (sk tm : String) (hr : ':' ∉ repo.data) (hs : ':' ∉ sk.data) (ht : ':' ∉ tm.data) :
    splitCols (llm_key_data issue_id repo upd sk tm).data =
      ['l', 'l', 'm'] :: repo.data :: natChars issue_id ::
        (splitCols (updated_str upd).data ++ [sk.data, tm.data]) := by
  have hdata : (llm_key_data issue_id repo upd sk tm).data =
      ['l', 'l', 'm'] ++ ':' :: (repo.data ++ ':' :: (natChars issue_id ++ ':' ::
        ((updated_str upd).data ++ ':' :: (sk.data ++ ':' :: tm.data)))) := by
    simp only [llm_key_data, string_data_append, natStr, List.append_assoc]
    rfl
  rw [hdata, splitCols_append, splitCols_append, splitCols_append, splitCols_append,
    splitCols_append, splitCols_colonFree hr, splitCols_colonFree (natChars_colonFree issue_id),
    splitCols_colonFree hs, splitCols_colonFree ht]
  simp [splitCols]

/-- C1 (amended): the key builder is deterministic — componentwise equal
tuples give identical keys — and, on the domain the pipeline uses (repo
names, skills and times containing no ':'; the timestamp never rendering as
the literal "unknown"), the pre-hash key data determines the 5-tuple
uniquely, so distinct tuples give distinct key data. (Over arbitrary strings
the claim fails, see the counterexample; and the md5 digest itself is not
injective on an infinite domain.) -/
theorem llm_key_injective (id₁ id₂ : Nat) (repo₁ repo₂ : String) (upd₁ upd₂ : Option String)
    (sk₁ sk₂ tm₁ tm₂ : String)
    (hr₁ : ':' ∉ repo₁.data) (hr₂ : ':' ∉ repo₂.data)
    (hs₁ : ':' ∉ sk₁.data) (hs₂ : ':' ∉ sk₂.data)
    (ht₁ : ':' ∉ tm₁.data) (ht₂ : ':' ∉ tm₂.data)
    (hu₁ : upd₁ ≠ some "unknown") (hu₂ : upd₂ ≠ some "unknown") :
    (llm_key_data id₁ repo₁ upd₁ sk₁ tm₁ = llm_key_data id₂ repo₂ upd₂ sk₂ tm₂ ↔
      (id₁ = id₂ ∧ repo₁ = repo₂ ∧ upd₁ = upd₂ ∧ sk₁ = sk₂ ∧ tm₁ = tm₂)) ∧
    (id₁ = id₂ → repo₁ = repo₂ → upd₁ = upd₂ → sk₁ = sk₂ → tm₁ = tm₂ →
      _make_llm_key id₁ repo₁ upd₁ sk₁ tm₁ = _make_llm_key id₂ repo₂ upd₂ sk₂ tm₂) := by
  constructor
  · constructor
    · intro h
      have hsplit : splitCols (llm_key_data id₁ repo₁ upd₁ sk₁ tm₁).data =
          splitCols (llm_key_data id₂ repo₂ upd₂ sk₂ tm₂).data := by rw [h]
      rw [splitCols_llm_key_data id₁ repo₁ upd₁ sk₁ tm₁ hr₁ hs₁ ht₁,
        splitCols_llm_key_data id₂ repo₂ upd₂ sk₂ tm₂ hr₂ hs₂ ht₂] at hsplit
      simp only [List.cons.injEq] at hsplit
      obtain ⟨-, hrepo, hid, htail⟩ := hsplit
      obtain ⟨hupd, hsk, htm⟩ := append_pair_inj htail
      refine ⟨natChars_inj hid, string_data_inj hrepo, ?_, string_data_inj hsk,
        string_data_inj htm⟩
      exact updated_str_inj hu₁ hu₂ (string_data_inj (splitCols_inj hupd))
    · rintro ⟨rfl, rfl, rfl, rfl, rfl⟩
      rfl
  · rintro rfl rfl rfl rfl rfl
    rfl

theorem natStr_one : natStr 1 = "1" := by
  have e1 : Nat.digits 10 1 = [1] := by
    rw [@Nat.digits_def' 10 (by norm_num) 1 (by norm_num)]
    norm_num
  simp [natStr, natChars, e1]
  rfl

/-- C1 counterexample: the tuples (1, "octo/repo", None, "a:b", "c") and
(1, "octo/repo", None, "a", "b:c") differ in their skill and time components,
yet `_make_llm_key` produces the identical key for both, because the raw
components are joined with ':' into the key data before hashing. -/
theorem llm_key_counterexample :
    _make_llm_key 1 "octo/repo" none "a:b" "c" = _make_llm_key 1 "octo/repo" none "a" "b:c" ∧
    ¬(("a:b", "c") = ("a", "b:c")) := by
  constructor
  · have h : llm_key_data 1 "octo/repo" none "a:b" "c" =
        llm_key_data 1 "octo/repo" none "a" "b:c" := by
      unfold llm_key_data
      rw [natStr_one]
      decide
    exact congrArg md5hex h
  · decide

/-- Witness for `llm_key_injective`: two tuples differing only in the issue
id have different key data. -/
theorem llm_key_injective_witness :
    llm_key_data 1 "octo/demo" none "beginner" "quick_win" ≠
      llm_key_data 2 "octo/demo" none "beginner" "quick_win" := by
  intro h
  have h5 := ((llm_key_injective 1 2 "octo/demo" "octo/demo" none none "beginner" "beginner"
      "quick_win" "quick_win" (by decide) (by decide) (by decide) (by decide) (by decide)
      (by decide) (by decide) (by decide)).1.mp h).1
  exact absurd h5 (by decide)
